import Mathlib

/-!
Verification of the uptime-service delegation backend submission pipeline.

The definitions below embed, in Lean, the Go code of the delegation
backend: the `/v1/submit` HTTP handler (`ServeHTTP`), the storage path
builder (`MakePathsImpl`), the S3 and local-filesystem persistence
functions (`S3Save`, `LocalFileSystemSave`), the startup / refresh logic
for the whitelist (from `main_bpu.go`), and — modelled from the design
document, since its implementation is outside the provided sources — the
per-submitter attempt counter (`RecordAttempt`).

External collaborators (JSON decoding, signature verification, the S3
service, the filesystem) are represented by oracle inputs: booleans and
options carried in the input structures, so the control flow of the Go
code is reproduced exactly while the collaborators stay abstract.
-/

namespace DelegationBackend

/-- Modelled from the spec: a SubmitterKey is a fixed-size public key value
with a canonical string form (`Pk.String()` in Go); equality is by content,
so the canonical string determines the key.  The Go definition of `Pk`
(a byte array plus base58 rendering) is outside the provided sources. -/
structure Pk where
  str : String
deriving DecidableEq, Repr

/-- Byte strings; their contents are never inspected by the code under
verification, only moved around. -/
abbrev Bytes := List Nat

/-- `type Paths struct { Meta string; Block string }` -/
structure Paths where
  Meta : String
  Block : String
deriving DecidableEq, Repr

/-- Embedding of `MakePathsImpl` (Go):
`res.Meta = strings.Join([]string{"submissions", submittedAt[:10], submittedAt + "-" + submitter.String() + ".json"}, "/")`
`res.Block = "blocks/" + blockHash + ".dat"`.
Go's `submittedAt[:10]` is the first 10 bytes of the timestamp string;
`String.take 10` agrees with it on the ASCII RFC3339 strings it is applied
to. -/
def MakePathsImpl (submittedAt : String) (blockHash : String) (submitter : Pk) : Paths :=
  { Meta := ("submissions") ++ ("/") ++ submittedAt.take 10 ++ ("/")
      ++ (submittedAt ++ ("-") ++ submitter.str ++ (".json"))
  , Block := ("blocks/") ++ blockHash ++ (".dat") }

/-- `makePaths` formats the submission time as UTC RFC3339 and calls
`MakePathsImpl`.  The time formatting is external library code; the model
takes the already-formatted string. -/
def makePaths (submittedAtStr : String) (blockHash : String) (submitter : Pk) : Paths :=
  MakePathsImpl submittedAtStr blockHash submitter

/-! ### Persistence fan-out

`ObjectsToSave` is a Go map from path to bytes; since map iteration order
is unspecified we embed it as an association list in iteration order, with
distinct keys when it comes from the handler.  The state of a destination
(the S3 bucket, or the local directory tree) is an association list from
full key to stored bytes.  `HeadObject` on S3 returns no error when the
object exists, a NotFound error when it does not, and may also fail with
any other error; the extra failures are injected through a `fault` oracle
(when `fault k = true` the probe returns a non-nil error for `k` even if
the object is stored).  `PutObject` / `WriteFile` are modelled as storing
the bytes; their errors are only logged by the Go code and change no
control flow. -/

abbrev ObjectsToSave := List (String × Bytes)

/-- The stored objects of one destination: full key ↦ contents. -/
abbrev Store := List (String × Bytes)

/-- Go's `strings.HasPrefix(s, pre)`: the characters of `pre` are an
initial segment of the characters of `s`. -/
def strHasPrefix (s pre : String) : Bool :=
  pre.data.isPrefixOf s.data

/-- Whether the destination stores an object under `k`. -/
def hasKey (store : Store) (k : String) : Bool :=
  store.any (fun e => decide (e.1 = k))

/-- The existence probe (`HeadObject`) succeeds (`err == nil` in Go) iff no
fault is injected for the key and the key is present in the store. -/
def headOk (fault : String → Bool) (store : Store) (key : String) : Bool :=
  !fault key && hasKey store key

/-- One iteration of the loop body of `S3Save` (Go): for a path with the
`blocks/` prefix, probe existence of `Prefix + "/" + path` and skip the
write when the probe succeeds (`err == nil`); in every other case (no
`blocks/` prefix, or probe error of any kind) put the object.  The
accumulator carries the destination store and the list of paths written so
far. -/
def S3SaveStep (pref : String) (fault : String → Bool)
    (acc : Store × List String) (obj : String × Bytes) : Store × List String :=
  let fullKey := pref ++ ("/") ++ obj.1
  if strHasPrefix obj.1 ("blocks/") && headOk fault acc.1 fullKey then
    acc
  else
    ((fullKey, obj.2) :: acc.1, acc.2 ++ [obj.1])

/-- Embedding of `AwsContext.S3Save` (Go): iterate over the objects,
existence-check only `blocks/`-prefixed paths, write everything else
unconditionally.  `pref` is the `AwsContext` key namespace field prepended
to every path.  Returns the final store and the paths written, in order. -/
def S3Save (pref : String) (fault : String → Bool)
    (objs : ObjectsToSave) (store : Store) : Store × List String :=
  objs.foldl (S3SaveStep pref fault) (store, [])

/-- One iteration of the loop body of `LocalFileSystemSave` (Go): join the
directory with the path, `os.Stat` the full path and skip the object when
the file already exists (for every path, metadata included); otherwise
create directories and write the file. -/
def LocalFileSystemSaveStep (directory : String)
    (acc : Store × List String) (obj : String × Bytes) : Store × List String :=
  let fullPath := directory ++ ("/") ++ obj.1
  if hasKey acc.1 fullPath then
    acc
  else
    ((fullPath, obj.2) :: acc.1, acc.2 ++ [fullPath])

/-- Embedding of `LocalFileSystemSave` (Go).  Returns the final directory
tree and the full paths written, in order. -/
def LocalFileSystemSave (objs : ObjectsToSave) (directory : String)
    (fs : Store) : Store × List String :=
  objs.foldl (LocalFileSystemSaveStep directory) (fs, [])

/-! ### Whitelist startup and refresh (from `main_bpu.go`) -/

/-- The whitelist snapshot: the set of registered submitters, as the
membership function of the Go map read through `WhitelistMVar`. -/
abbrev Whitelist := Pk → Bool

/-- Outcome of the whitelist block of `main` in `main_bpu.go`: either the
process aborts (`log.Fatalf`) before serving, or it starts serving with an
optional whitelist MVar (none iff the whitelist feature is disabled). -/
inductive StartupResult where
  | fatal
  | serving (wl : Option Whitelist)

/-- Embedding of the whitelist startup logic of `main` (`main_bpu.go`):
when the whitelist is disabled no fetch happens; otherwise the initial
`RetrieveWhitelist` result decides between `log.Fatalf` (no serving) and
publishing the fetched list. -/
def whitelistStartup (whitelistDisabled : Bool)
    (initialFetch : Except String Whitelist) : StartupResult :=
  if whitelistDisabled then
    .serving none
  else
    match initialFetch with
    | .error _ => .fatal
    | .ok wl => .serving (some wl)

/-- Embedding of one iteration of the refresh goroutine of `main`
(`main_bpu.go`): on a fetch error the previous snapshot is kept; on success
the snapshot is replaced by the fetched list. -/
def whitelistRefreshStep (snapshot : Whitelist)
    (fetch : Except String Whitelist) : Whitelist :=
  match fetch with
  | .error _ => snapshot
  | .ok wl => wl

/-! ### Rate limiter -/

/-- Modelled from the spec: the state of the `AttemptCounter` — the
configured per-window maximum, the trailing window length (nanoseconds),
and, per submitter key, the recorded attempt timestamps.  The Go
implementation of `AttemptCounter` is outside the provided sources. -/
structure AttemptState where
  maxAttempts : Nat
  window : Int
  attempts : Pk → List Int

/-- Modelled from the spec: `RecordAttempt(key)` prunes the key's entries
older than the trailing window ending now, then, if the remaining count is
at least the configured maximum, returns false without recording;
otherwise it appends the new attempt timestamp and returns true. -/
def RecordAttempt (c : AttemptState) (key : Pk) (now : Int) : Bool × AttemptState :=
  let kept := (c.attempts key).filter (fun t => decide (now - t < c.window))
  if c.maxAttempts ≤ kept.length then
    (false, { c with attempts := fun k => if k = key then kept else c.attempts k })
  else
    (true, { c with attempts := fun k => if k = key then kept ++ [now] else c.attempts k })

/-- A sequence of `RecordAttempt` calls for one key at the given times;
returns the outcomes in order and the final state. -/
def runAttempts (c : AttemptState) (key : Pk) (ts : List Int) : List Bool × AttemptState :=
  match ts with
  | [] => ([], c)
  | t :: rest =>
    let r := RecordAttempt c key t
    let r2 := runAttempts r.2 key rest
    (r.1 :: r2.1, r2.2)

/-! ### The `/v1/submit` handler -/

/-- The body the handler writes on each response: nothing (the 411 and 413
branches only call `WriteHeader`), the JSON error object written by
`writeErrorResponse` carrying a message, or the fixed success
acknowledgement. -/
inductive RespBody where
  | empty
  | err (msg : String)
  | ok
deriving DecidableEq, Repr

/-- True exactly on the structured error body written by
`writeErrorResponse`. -/
def RespBody.isError : RespBody → Bool
  | .err _ => true
  | _ => false

/-- The parsed submission, with the methods defined outside the provided
sources (`CheckRequiredFields`, `MakeSignPayload`, `verifySig`,
`GetBlockDataHash`, `MakeMetaToBeSaved`) represented by oracle fields
giving their return values for this request. -/
structure SubmitRequest where
  submitter : Pk
  createdAt : Int
  requiredFieldsOk : Bool
  signPayload : Option Bytes
  sigValid : Bool
  blockHash : String
  blockData : Bytes
  metaToBeSaved : Option Bytes

/-- One `/v1/submit` HTTP request as the handler observes it:
`Content-Length` (−1 when the header is missing), whether reading the body
yielded exactly the declared number of bytes, and the result of JSON
decoding (`none` on a decode error). -/
structure SubmitInput where
  contentLength : Int
  bodyReadOk : Bool
  decoded : Option SubmitRequest

/-- The `App` state and configuration the handler reads: the two feature
switches, the whitelist snapshot read through `WhitelistMVar`, the
configured maximum payload size (`MAX_SUBMIT_PAYLOAD_SIZE`), the
freshness-check constant `TIME_DIFF_DELTA`, the current time both as
nanoseconds and as its UTC RFC3339 rendering, and the attempt counter
state. -/
structure AppModel where
  whitelistDisabled : Bool
  verifySignatureDisabled : Bool
  whitelist : Whitelist
  maxSubmitPayloadSize : Int
  timeDiffDelta : Int
  now : Int
  nowRFC3339 : String
  counter : AttemptState

/-- What one handler invocation produced: the HTTP status, the body
written, the attempt-counter state afterwards, whether `RecordAttempt` was
invoked, whether `verifySig` was invoked, and the `ObjectsToSave` passed to
`app.Save` (`none` when persistence was never called). -/
structure SubmitOutcome where
  status : Nat
  body : RespBody
  counter : AttemptState
  rateLimiterCalled : Bool
  sigVerifyCalled : Bool
  saved : Option ObjectsToSave

/-- A response terminating the pipeline before the rate-limit stage: the
counter is untouched, nothing is saved. -/
def rejected (app : AppModel) (status : Nat) (body : RespBody)
    (sigCalled : Bool) : SubmitOutcome :=
  { status := status, body := body, counter := app.counter
  , rateLimiterCalled := false, sigVerifyCalled := sigCalled, saved := none }

/-- Stages 9–11 of `ServeHTTP` (after `RecordAttempt` returned true with
new counter state `counter'`): build the paths from the current time, the
block hash and the submitter; a `MakeMetaToBeSaved` failure is a 500; else
save exactly the metadata object and the block object and answer 200. -/
def submitPersist (app : AppModel) (req : SubmitRequest)
    (counter' : AttemptState) (sigCalled : Bool) : SubmitOutcome :=
  let ps := makePaths app.nowRFC3339 req.blockHash req.submitter
  match req.metaToBeSaved with
  | none =>
    { status := 500, body := .err ("Unexpected server error"), counter := counter'
    , rateLimiterCalled := true, sigVerifyCalled := sigCalled, saved := none }
  | some metaBytes =>
    { status := 200, body := .ok, counter := counter'
    , rateLimiterCalled := true, sigVerifyCalled := sigCalled
    , saved := some [(ps.Meta, metaBytes), (ps.Block, req.blockData)] }

/-- Stage 8 of `ServeHTTP`: `RecordAttempt` for the submitter; a false
result is a 429 (with the attempt-counter state as the call left it). -/
def submitRateLimit (app : AppModel) (req : SubmitRequest)
    (sigCalled : Bool) : SubmitOutcome :=
  let r := RecordAttempt app.counter req.submitter app.now
  if r.1 = false then
    { status := 429, body := .err ("Too many requests per hour"), counter := r.2
    , rateLimiterCalled := true, sigVerifyCalled := sigCalled, saved := none }
  else
    submitPersist app req r.2 sigCalled

/-- Stage 7 of `ServeHTTP`: unless disabled, build the sign payload (a
failure is a 500 and `verifySig` is never reached), hash it and verify the
signature (a failure is a 401). -/
def submitSignature (app : AppModel) (req : SubmitRequest) : SubmitOutcome :=
  if app.verifySignatureDisabled = false then
    match req.signPayload with
    | none => rejected app 500 (.err ("Unexpected server error")) false
    | some _ =>
      if req.sigValid = false then
        rejected app 401 (.err ("Invalid signature")) true
      else
        submitRateLimit app req true
  else
    submitRateLimit app req false

/-- Embedding of `SubmitH.ServeHTTP` (Go), stages in source order:
Content-Length gates (411 / 413, bare status, no body), body read (400),
JSON decode (400), required fields (400), whitelist (401), freshness
(400: rejected when `CreatedAt + TIME_DIFF_DELTA` is after now), then
signature, rate limit and persistence. -/
def ServeHTTP (app : AppModel) (inp : SubmitInput) : SubmitOutcome :=
  if inp.contentLength = -1 then
    rejected app 411 .empty false
  else if app.maxSubmitPayloadSize < inp.contentLength then
    rejected app 413 .empty false
  else if inp.bodyReadOk = false then
    rejected app 400 (.err ("Error reading the body")) false
  else
    match inp.decoded with
    | none => rejected app 400 (.err ("Error decoding payload")) false
    | some req =>
      if req.requiredFieldsOk = false then
        rejected app 400 (.err ("One of required fields wasn't provided")) false
      else if !app.whitelistDisabled && !app.whitelist req.submitter then
        rejected app 401 (.err (("Submitter is not registered: ") ++ req.submitter.str)) false
      else if app.now < req.createdAt + app.timeDiffDelta then
        rejected app 400 (.err ("Field created_at is a timestamp in future")) false
      else
        submitSignature app req

/-! ### Concrete instances used by witnesses and counterexamples -/

/-- A concrete parsed submission. -/
def exReq : SubmitRequest :=
  { submitter := ⟨("B62qA")⟩, createdAt := 500, requiredFieldsOk := true
  , signPayload := some [1], sigValid := true, blockHash := ("h")
  , blockData := [7], metaToBeSaved := some [8] }

/-- A concrete app state: whitelist enabled and allowing everyone,
signature verification enabled, 1000-byte payload cap, 300 ns skew
constant, fresh attempt counter allowing 2 attempts per 3600 ns window. -/
def exApp : AppModel :=
  { whitelistDisabled := false
  , verifySignatureDisabled := false
  , whitelist := fun _ => true
  , maxSubmitPayloadSize := 1000
  , timeDiffDelta := -300
  , now := 1000000
  , nowRFC3339 := ("2024-01-02T03:04:05Z")
  , counter := { maxAttempts := 2, window := 3600, attempts := fun _ => [] } }

/-- A concrete well-formed request with the given Content-Length. -/
def exInp (cl : Int) : SubmitInput :=
  { contentLength := cl, bodyReadOk := true, decoded := some exReq }

/-- The rate-limiter contract under scrutiny, for a start state `c`, a key
under test, a foreign key, call times `ts`, a later time `t'` past the
window, and an arbitrary call time `tOther`: (i) of the `ts` calls for the
key the first max are allowed and the last rejected; (ii) the rejected
call records nothing — exactly max timestamps stored; (iii) after the
window has fully elapsed the next call for the key is allowed again;
(iv) a call for a different key leaves the key's record untouched;
(v) the outcome for the key depends only on the key's own record and the
shared configuration; (vi) in the handler, a false `RecordAttempt` at the
rate-limit stage is answered 429. -/
def RateLimiterContract (c : AttemptState) (key otherKey : Pk)
    (ts : List Int) (t' tOther : Int) : Prop :=
  (runAttempts c key ts).1 = List.replicate c.maxAttempts true ++ [false]
  ∧ ((runAttempts c key ts).2.attempts key).length = c.maxAttempts
  ∧ (RecordAttempt (runAttempts c key ts).2 key t').1 = true
  ∧ (RecordAttempt c otherKey tOther).2.attempts key = c.attempts key
  ∧ (∀ c₂ : AttemptState, c₂.attempts key = c.attempts key →
      c₂.maxAttempts = c.maxAttempts → c₂.window = c.window →
      (RecordAttempt c₂ key tOther).1 = (RecordAttempt c key tOther).1)
  ∧ (∀ (app : AppModel) (inp : SubmitInput) (req : SubmitRequest),
      inp.decoded = some req →
      inp.contentLength ≠ -1 → ¬app.maxSubmitPayloadSize < inp.contentLength →
      inp.bodyReadOk = true → req.requiredFieldsOk = true →
      (app.whitelistDisabled = true ∨ app.whitelist req.submitter = true) →
      ¬app.now < req.createdAt + app.timeDiffDelta →
      (app.verifySignatureDisabled = true
        ∨ (req.signPayload ≠ none ∧ req.sigValid = true)) →
      (RecordAttempt app.counter req.submitter app.now).1 = false →
      (ServeHTTP app inp).status = 429)

/-! ## Theorems -/

/-- The character list of the metadata path, fully right-associated. -/
theorem meta_data_eq (t bh : String) (s : Pk) :
    (MakePathsImpl t bh s).Meta.data
      = ("submissions").data ++ (("/").data ++ ((t.data.take 10) ++ (("/").data
          ++ (t.data ++ (("-").data ++ (s.str.data ++ (".json").data)))))) := by
  simp only [MakePathsImpl, String.data_append, String.data_take, List.append_assoc]

/-- The character list of the block path, fully right-associated. -/
theorem block_data_eq (t bh : String) (s : Pk) :
    (MakePathsImpl t bh s).Block.data
      = ("blocks/").data ++ (bh.data ++ (".dat").data) := by
  simp only [MakePathsImpl, String.data_append, List.append_assoc]

/-- C5: path building is deterministic (it is a pure function of the
triple); the metadata path is `submissions/` + the first 10 characters of
the RFC3339 timestamp + `/` + timestamp + `-` + submitter string +
`.json`, the block path `blocks/` + hash + `.dat`; distinct block hashes
give distinct block paths, and — for timestamps of equal length, as all
UTC RFC3339 renderings are — distinct (day, submitter, timestamp) triples
give distinct metadata paths (day is the first 10 characters of the
timestamp, so it is determined by the timestamp). -/
theorem C5_make_paths (t₁ t₂ bh₁ bh₂ : String) (s₁ s₂ : Pk)
    (hlen : t₁.data.length = t₂.data.length) :
    ((MakePathsImpl t₁ bh₁ s₁).Meta
        = ("submissions") ++ ("/") ++ t₁.take 10 ++ ("/")
            ++ (t₁ ++ ("-") ++ s₁.str ++ (".json"))
      ∧ (MakePathsImpl t₁ bh₁ s₁).Block = ("blocks/") ++ bh₁ ++ (".dat"))
    ∧ ((MakePathsImpl t₁ bh₁ s₁).Block = (MakePathsImpl t₂ bh₂ s₂).Block → bh₁ = bh₂)
    ∧ ((MakePathsImpl t₁ bh₁ s₁).Meta = (MakePathsImpl t₂ bh₂ s₂).Meta →
        t₁ = t₂ ∧ s₁ = s₂) := by
  refine ⟨⟨rfl, rfl⟩, ?_, ?_⟩
  · intro hB
    have hB' := String.ext_iff.1 hB
    rw [block_data_eq t₁ bh₁ s₁, block_data_eq t₂ bh₂ s₂] at hB'
    have h1 := List.append_cancel_left hB'
    exact String.ext (List.append_cancel_right h1)
  · intro hM
    have hM' := String.ext_iff.1 hM
    rw [meta_data_eq t₁ bh₁ s₁, meta_data_eq t₂ bh₂ s₂] at hM'
    have h1 := List.append_cancel_left (List.append_cancel_left hM')
    have hlen10 : (t₁.data.take 10).length = (t₂.data.take 10).length := by
      simp [List.length_take, hlen]
    obtain ⟨-, h2⟩ := List.append_inj h1 hlen10
    have h3 := List.append_cancel_left h2
    obtain ⟨h4, h5⟩ := List.append_inj h3 hlen
    have h6 := List.append_cancel_right (List.append_cancel_left h5)
    refine ⟨String.ext h4, ?_⟩
    cases s₁ with
    | mk a => cases s₂ with
      | mk b => exact congrArg Pk.mk (String.ext h6)

/-- C5 witness: the hypothesis (equal-length timestamps) and the
conclusion at a concrete instance. -/
theorem C5_make_paths_witness :
    ("2024-01-02T03:04:05Z" : String).data.length
        = ("2024-01-02T03:04:06Z" : String).data.length
    ∧ (((MakePathsImpl ("2024-01-02T03:04:05Z") ("abc") ⟨("B62qA")⟩).Meta
          = ("submissions") ++ ("/") ++ String.take ("2024-01-02T03:04:05Z") 10 ++ ("/")
              ++ (("2024-01-02T03:04:05Z") ++ ("-") ++ Pk.str ⟨("B62qA")⟩ ++ (".json"))
        ∧ (MakePathsImpl ("2024-01-02T03:04:05Z") ("abc") ⟨("B62qA")⟩).Block
          = ("blocks/") ++ ("abc") ++ (".dat"))
      ∧ ((MakePathsImpl ("2024-01-02T03:04:05Z") ("abc") ⟨("B62qA")⟩).Block
            = (MakePathsImpl ("2024-01-02T03:04:06Z") ("abd") ⟨("B62qB")⟩).Block
          → ("abc" : String) = ("abd"))
      ∧ ((MakePathsImpl ("2024-01-02T03:04:05Z") ("abc") ⟨("B62qA")⟩).Meta
            = (MakePathsImpl ("2024-01-02T03:04:06Z") ("abd") ⟨("B62qB")⟩).Meta
          → ("2024-01-02T03:04:05Z" : String) = ("2024-01-02T03:04:06Z")
            ∧ (⟨("B62qA")⟩ : Pk) = ⟨("B62qB")⟩)) :=
  ⟨rfl, C5_make_paths ("2024-01-02T03:04:05Z") ("2024-01-02T03:04:06Z")
    ("abc") ("abd") ⟨("B62qA")⟩ ⟨("B62qB")⟩ rfl⟩

/-- C8: with the whitelist feature enabled, a failing initial fetch is
fatal — the startup logic never reaches the serving state; a failing
periodic fetch leaves the published snapshot unchanged, and only a
successful fetch replaces it. -/
theorem C8_whitelist_fetch_failures (e : String) (s w : Whitelist) :
    whitelistStartup false (.error e) = .fatal
    ∧ whitelistRefreshStep s (.error e) = s
    ∧ whitelistRefreshStep s (.ok w) = w :=
  ⟨rfl, rfl, rfl⟩

/-- `hasKey` on an extended store. -/
theorem hasKey_cons (a : String × Bytes) (l : Store) (k : String) :
    hasKey (a :: l) k = (decide (a.1 = k) || hasKey l k) := by
  simp [hasKey]

/-- A key present at an S3 destination stays present through `S3Save`'s
loop: the loop only puts objects, it never deletes. -/
theorem s3_hasKey_mono (pref : String) (fault : String → Bool) (k : String) :
    ∀ (objs : ObjectsToSave) (acc : Store × List String),
    hasKey acc.1 k = true →
    hasKey ((objs.foldl (S3SaveStep pref fault) acc).1) k = true := by
  intro objs
  induction objs with
  | nil => exact fun acc h => h
  | cons obj rest ih =>
    intro acc h
    rw [List.foldl_cons]
    apply ih
    simp only [S3SaveStep]
    split
    · exact h
    · rw [hasKey_cons, h, Bool.or_true]

/-- A path already recorded as written stays in the write list through
`S3Save`'s loop. -/
theorem s3_writes_mono (pref : String) (fault : String → Bool) (p : String) :
    ∀ (objs : ObjectsToSave) (acc : Store × List String),
    p ∈ acc.2 →
    p ∈ (objs.foldl (S3SaveStep pref fault) acc).2 := by
  intro objs
  induction objs with
  | nil => exact fun acc h => h
  | cons obj rest ih =>
    intro acc h
    rw [List.foldl_cons]
    apply ih
    simp only [S3SaveStep]
    split
    · exact h
    · exact List.mem_append_left _ h

/-- A `blocks/`-prefixed path whose object is already present at the S3
destination (and whose probe is not faulted) is never written by
`S3Save`'s loop. -/
theorem s3_present_block_not_written (pref : String) (p : String)
    (hp : strHasPrefix p ("blocks/") = true) :
    ∀ (objs : ObjectsToSave) (acc : Store × List String),
    hasKey acc.1 (pref ++ ("/") ++ p) = true →
    p ∉ acc.2 →
    p ∉ (objs.foldl (S3SaveStep pref (fun _ => false)) acc).2 := by
  intro objs
  induction objs with
  | nil => exact fun acc _ h => h
  | cons obj rest ih =>
    intro acc hpres hnot
    rw [List.foldl_cons]
    by_cases he : obj.1 = p
    · have hstep : S3SaveStep pref (fun _ => false) acc obj = acc := by
        simp only [S3SaveStep]
        rw [he, hp, headOk, hpres]
        simp
      rw [hstep]
      exact ih acc hpres hnot
    · apply ih
      · simp only [S3SaveStep]
        split
        · exact hpres
        · rw [hasKey_cons, hpres, Bool.or_true]
      · simp only [S3SaveStep]
        split
        · exact hnot
        · intro hmem
          rcases List.mem_append.1 hmem with h | h
          · exact hnot h
          · exact he (List.mem_singleton.1 h).symm

/-- After `S3Save` processed an object, its full key is present at the
destination (either it was already stored, or the loop put it). -/
theorem s3_processed_present (pref : String) (fault : String → Bool)
    (p : String) (bs : Bytes) :
    ∀ (objs : ObjectsToSave) (acc : Store × List String),
    (p, bs) ∈ objs →
    hasKey ((objs.foldl (S3SaveStep pref fault) acc).1) (pref ++ ("/") ++ p) = true := by
  intro objs
  induction objs with
  | nil => intro acc h; cases h
  | cons obj rest ih =>
    intro acc hmem
    rw [List.foldl_cons]
    rcases List.mem_cons.1 hmem with heq | hrest
    · apply s3_hasKey_mono
      rw [← heq]
      simp only [S3SaveStep]
      split
      · next hcond =>
          simp only [Bool.and_eq_true, headOk] at hcond
          exact hcond.2.2
      · rw [hasKey_cons]
        simp
    · exact ih _ hrest

/-- An object whose path lacks the `blocks/` prefix is written by
`S3Save`'s loop whatever the destination holds and whatever the probe
would answer. -/
theorem s3_nonblock_written (pref : String) (fault : String → Bool)
    (p : String) (bs : Bytes) (hp : strHasPrefix p ("blocks/") = false) :
    ∀ (objs : ObjectsToSave) (acc : Store × List String),
    (p, bs) ∈ objs →
    p ∈ (objs.foldl (S3SaveStep pref fault) acc).2 := by
  intro objs
  induction objs with
  | nil => intro acc h; cases h
  | cons obj rest ih =>
    intro acc hmem
    rw [List.foldl_cons]
    rcases List.mem_cons.1 hmem with heq | hrest
    · apply s3_writes_mono
      rw [← heq]
      simp only [S3SaveStep, hp, Bool.false_and, if_false]
      exact List.mem_append_right _ (List.mem_singleton.2 rfl)
    · exact ih _ hrest

/-- A `blocks/`-prefixed object whose existence probe is faulted (returns
a non-nil error even though the object may be stored) is written by
`S3Save`'s loop. -/
theorem s3_fault_written (pref : String) (fault : String → Bool)
    (p : String) (bs : Bytes) (hf : fault (pref ++ ("/") ++ p) = true) :
    ∀ (objs : ObjectsToSave) (acc : Store × List String),
    (p, bs) ∈ objs →
    p ∈ (objs.foldl (S3SaveStep pref fault) acc).2 := by
  intro objs
  induction objs with
  | nil => intro acc h; cases h
  | cons obj rest ih =>
    intro acc hmem
    rw [List.foldl_cons]
    rcases List.mem_cons.1 hmem with heq | hrest
    · apply s3_writes_mono
      rw [← heq]
      simp only [S3SaveStep, headOk, hf, Bool.not_true, Bool.false_and,
        Bool.and_false, if_false]
      exact List.mem_append_right _ (List.mem_singleton.2 rfl)
    · exact ih _ hrest

/-- A full path already present in the local directory tree is never
written by `LocalFileSystemSave`'s loop: every path, metadata included, is
existence-checked and skipped when the file exists. -/
theorem local_present_not_written (directory fullp : String) :
    ∀ (objs : ObjectsToSave) (acc : Store × List String),
    hasKey acc.1 fullp = true →
    fullp ∉ acc.2 →
    fullp ∉ (objs.foldl (LocalFileSystemSaveStep directory) acc).2 := by
  intro objs
  induction objs with
  | nil => exact fun acc _ h => h
  | cons obj rest ih =>
    intro acc hpres hnot
    rw [List.foldl_cons]
    by_cases he : directory ++ ("/") ++ obj.1 = fullp
    · have hstep : LocalFileSystemSaveStep directory acc obj = acc := by
        simp only [LocalFileSystemSaveStep]
        rw [he, hpres]
        simp
      rw [hstep]
      exact ih acc hpres hnot
    · apply ih
      · simp only [LocalFileSystemSaveStep]
        split
        · exact hpres
        · rw [hasKey_cons, hpres, Bool.or_true]
      · simp only [LocalFileSystemSaveStep]
        split
        · exact hnot
        · intro hmem
          rcases List.mem_append.1 hmem with h | h
          · exact hnot h
          · exact he (List.mem_singleton.1 h).symm

/-- C3 counterexample: the claim fails for the local-filesystem
destination.  A metadata object (path not under `blocks/`) whose file
already exists is existence-checked and skipped: `LocalFileSystemSave`
leaves the tree unchanged and writes nothing, against "written
unconditionally, without any prior existence check at the destination". -/
theorem C3_counterexample :
    LocalFileSystemSave
      [(("submissions/2024-01-02/a.json"), [1])] ("root")
      [(("root/submissions/2024-01-02/a.json"), [2])]
      = ([(("root/submissions/2024-01-02/a.json"), [2])], []) := by
  decide

/-- C3 (amended): in the S3 destination, objects whose path does not begin
with the block prefix are written unconditionally, with no existence
probe able to prevent the write (for every store content and every probe
behaviour); the local-filesystem destination, however, existence-checks
every path — an object whose file already exists is skipped, metadata
included. -/
theorem C3_amended_nonblock_writes :
    (∀ (pref : String) (fault : String → Bool) (objs : ObjectsToSave)
       (store : Store) (p : String) (bs : Bytes),
       (p, bs) ∈ objs → strHasPrefix p ("blocks/") = false →
       p ∈ (S3Save pref fault objs store).2)
    ∧ (∀ (directory : String) (objs : ObjectsToSave) (fs : Store) (fullp : String),
       hasKey fs fullp = true →
       fullp ∉ (LocalFileSystemSave objs directory fs).2) := by
  constructor
  · intro pref fault objs store p bs hmem hp
    exact s3_nonblock_written pref fault p bs hp objs (store, []) hmem
  · intro directory objs fs fullp hpres
    exact local_present_not_written directory fullp objs (fs, []) hpres
      (List.not_mem_nil fullp)

/-- C3 witness: the amended statement applied at a concrete instance —
S3 writes a metadata object over any store, and the local destination
skips a metadata object whose file exists. -/
theorem C3_amended_witness :
    ((("submissions/a.json"), ([1] : Bytes)) ∈
        ([(("submissions/a.json"), [1])] : ObjectsToSave)
      ∧ strHasPrefix ("submissions/a.json") ("blocks/") = false
      ∧ ("submissions/a.json") ∈
          (S3Save ("mainnet") (fun _ => true)
            [(("submissions/a.json"), [1])]
            [(("mainnet/submissions/a.json"), [2])]).2)
    ∧ (hasKey [(("d/x.json"), ([2] : Bytes))] ("d/x.json") = true
      ∧ ("d/x.json") ∉
          (LocalFileSystemSave [(("x.json"), [3])] ("d")
            [(("d/x.json"), [2])]).2) :=
  ⟨⟨by decide, by decide,
    C3_amended_nonblock_writes.1 ("mainnet") (fun _ => true)
      [(("submissions/a.json"), [1])] [(("mainnet/submissions/a.json"), [2])]
      ("submissions/a.json") [1] (by decide) (by decide)⟩,
   ⟨by decide,
    C3_amended_nonblock_writes.2 ("d") [(("x.json"), [3])]
      [(("d/x.json"), [2])] ("d/x.json") (by decide)⟩⟩

/-- C4: a `blocks/`-prefixed path is existence-checked first and, when the
object is already present (probe succeeds), the write is skipped entirely;
consequently a second `S3Save` of the same ObjectSet writes no block
object again, while objects without the block prefix (the metadata) are
written again on the second call. -/
theorem C4_block_write_idempotent :
    (∀ (pref : String) (objs : ObjectsToSave) (store : Store) (p : String),
       strHasPrefix p ("blocks/") = true →
       hasKey store (pref ++ ("/") ++ p) = true →
       p ∉ (S3Save pref (fun _ => false) objs store).2)
    ∧ (∀ (pref : String) (objs : ObjectsToSave) (store : Store) (p : String) (bs : Bytes),
       (p, bs) ∈ objs → strHasPrefix p ("blocks/") = true →
       p ∉ (S3Save pref (fun _ => false) objs
              (S3Save pref (fun _ => false) objs store).1).2)
    ∧ (∀ (pref : String) (objs : ObjectsToSave) (store : Store) (q : String) (qb : Bytes),
       (q, qb) ∈ objs → strHasPrefix q ("blocks/") = false →
       q ∈ (S3Save pref (fun _ => false) objs
              (S3Save pref (fun _ => false) objs store).1).2) := by
  refine ⟨?_, ?_, ?_⟩
  · intro pref objs store p hp hpres
    exact s3_present_block_not_written pref p hp objs (store, []) hpres
      (List.not_mem_nil p)
  · intro pref objs store p bs hmem hp
    have hpres : hasKey (S3Save pref (fun _ => false) objs store).1
        (pref ++ ("/") ++ p) = true :=
      s3_processed_present pref (fun _ => false) p bs objs (store, []) hmem
    exact s3_present_block_not_written pref p hp objs
      ((S3Save pref (fun _ => false) objs store).1, []) hpres (List.not_mem_nil p)
  · intro pref objs store q qb hmem hq
    exact s3_nonblock_written pref (fun _ => false) q qb hq objs
      ((S3Save pref (fun _ => false) objs store).1, []) hmem

/-- C4 witness: at a concrete ObjectSet holding one block and one metadata
object, with the block already stored: the block is not written, and after
a first save a second save still skips the block but writes the metadata. -/
theorem C4_block_write_idempotent_witness :
    (strHasPrefix ("blocks/h.dat") ("blocks/") = true
      ∧ hasKey [(("net/blocks/h.dat"), ([9] : Bytes))] (("net") ++ ("/") ++ ("blocks/h.dat")) = true
      ∧ ("blocks/h.dat") ∉
          (S3Save ("net") (fun _ => false)
            [(("submissions/m.json"), [1]), (("blocks/h.dat"), [9])]
            [(("net/blocks/h.dat"), [9])]).2)
    ∧ ((("blocks/h.dat"), ([9] : Bytes)) ∈
          ([(("submissions/m.json"), [1]), (("blocks/h.dat"), [9])] : ObjectsToSave)
      ∧ ("blocks/h.dat") ∉
          (S3Save ("net") (fun _ => false)
            [(("submissions/m.json"), [1]), (("blocks/h.dat"), [9])]
            (S3Save ("net") (fun _ => false)
              [(("submissions/m.json"), [1]), (("blocks/h.dat"), [9])] []).1).2)
    ∧ (("submissions/m.json") ∈
          (S3Save ("net") (fun _ => false)
            [(("submissions/m.json"), [1]), (("blocks/h.dat"), [9])]
            (S3Save ("net") (fun _ => false)
              [(("submissions/m.json"), [1]), (("blocks/h.dat"), [9])] []).1).2) :=
  ⟨⟨by decide, by decide,
    C4_block_write_idempotent.1 ("net")
      [(("submissions/m.json"), [1]), (("blocks/h.dat"), [9])]
      [(("net/blocks/h.dat"), [9])] ("blocks/h.dat") (by decide) (by decide)⟩,
   ⟨by decide,
    C4_block_write_idempotent.2.1 ("net")
      [(("submissions/m.json"), [1]), (("blocks/h.dat"), [9])] []
      ("blocks/h.dat") [9] (by decide) (by decide)⟩,
   C4_block_write_idempotent.2.2 ("net")
     [(("submissions/m.json"), [1]), (("blocks/h.dat"), [9])] []
     ("submissions/m.json") [1] (by decide) (by decide)⟩

/-- C10: when the existence probe of a `blocks/`-prefixed path returns any
error — including errors other than not-found, injected here by the fault
oracle regardless of what the store holds — the block is still written:
only a successful probe skips the write, so a failing probe never drops a
block. -/
theorem C10_probe_error_still_writes
    (pref : String) (fault : String → Bool) (objs : ObjectsToSave)
    (store : Store) (p : String) (bs : Bytes)
    (hmem : (p, bs) ∈ objs) (hp : strHasPrefix p ("blocks/") = true)
    (hf : fault (pref ++ ("/") ++ p) = true) :
    p ∈ (S3Save pref fault objs store).2 :=
  s3_fault_written pref fault p bs hf objs (store, []) hmem

/-- C10 witness: a block whose object is stored but whose probe errors is
written nevertheless. -/
theorem C10_probe_error_still_writes_witness :
    ((("blocks/h.dat"), ([9] : Bytes)) ∈ ([(("blocks/h.dat"), [9])] : ObjectsToSave)
      ∧ strHasPrefix ("blocks/h.dat") ("blocks/") = true
      ∧ (fun _ => true) (("net") ++ ("/") ++ ("blocks/h.dat")) = true)
    ∧ ("blocks/h.dat") ∈
        (S3Save ("net") (fun _ => true) [(("blocks/h.dat"), [9])]
          [(("net/blocks/h.dat"), [9])]).2 :=
  ⟨⟨by decide, by decide, rfl⟩,
   C10_probe_error_still_writes ("net") (fun _ => true) [(("blocks/h.dat"), [9])]
     [(("net/blocks/h.dat"), [9])] ("blocks/h.dat") [9] (by decide) (by decide) rfl⟩

/-- The two possible results of the persistence stage: a 500 when the
metadata cannot be marshalled, or a 200 saving exactly the metadata object
and the block object. -/
theorem submitPersist_forms (app : AppModel) (req : SubmitRequest)
    (c' : AttemptState) (b : Bool) :
    submitPersist app req c' b
        = { status := 500, body := .err ("Unexpected server error"), counter := c'
          , rateLimiterCalled := true, sigVerifyCalled := b, saved := none }
    ∨ ∃ m, submitPersist app req c' b
        = { status := 200, body := .ok, counter := c'
          , rateLimiterCalled := true, sigVerifyCalled := b
          , saved := some
              [((makePaths app.nowRFC3339 req.blockHash req.submitter).Meta, m)
              , ((makePaths app.nowRFC3339 req.blockHash req.submitter).Block, req.blockData)] } := by
  rcases hm : req.metaToBeSaved with _ | m
  · left
    simp [submitPersist, hm]
  · right
    exact ⟨m, by simp [submitPersist, hm]⟩

/-- The two possible results of the rate-limit stage: 429 when
`RecordAttempt` rejects, otherwise the persistence stage with the updated
counter. -/
theorem submitRateLimit_forms (app : AppModel) (req : SubmitRequest) (b : Bool) :
    ((RecordAttempt app.counter req.submitter app.now).1 = false
      ∧ submitRateLimit app req b
          = { status := 429, body := .err ("Too many requests per hour")
            , counter := (RecordAttempt app.counter req.submitter app.now).2
            , rateLimiterCalled := true, sigVerifyCalled := b, saved := none })
    ∨ ((RecordAttempt app.counter req.submitter app.now).1 = true
      ∧ submitRateLimit app req b
          = submitPersist app req (RecordAttempt app.counter req.submitter app.now).2 b) := by
  by_cases h : (RecordAttempt app.counter req.submitter app.now).1 = false
  · left
    exact ⟨h, by simp [submitRateLimit, h]⟩
  · right
    exact ⟨by simpa using h, by simp [submitRateLimit, h]⟩

/-- The three possible results of the signature stage: a 500 when the sign
payload cannot be built, a 401 on an invalid signature, or the rate-limit
stage (with the flag recording whether `verifySig` ran). -/
theorem submitSignature_forms (app : AppModel) (req : SubmitRequest) :
    (submitSignature app req = rejected app 500 (.err ("Unexpected server error")) false)
    ∨ (submitSignature app req = rejected app 401 (.err ("Invalid signature")) true)
    ∨ (∃ b, submitSignature app req = submitRateLimit app req b) := by
  by_cases hd : app.verifySignatureDisabled = false
  · rcases hp : req.signPayload with _ | p
    · left
      simp [submitSignature, hd, hp]
    · by_cases hs : req.sigValid = false
      · right; left
        simp [submitSignature, hd, hp, hs]
      · right; right
        exact ⟨true, by simp [submitSignature, hd, hp, hs]⟩
  · right; right
    exact ⟨false, by simp [submitSignature, hd]⟩

/-- The statuses the signature stage onwards can produce. -/
theorem submitSignature_status (app : AppModel) (req : SubmitRequest) :
    (submitSignature app req).status = 500 ∨ (submitSignature app req).status = 401
    ∨ (submitSignature app req).status = 429 ∨ (submitSignature app req).status = 200 := by
  rcases submitSignature_forms app req with h | h | ⟨b, h⟩
  · left
    rw [h]
    rfl
  · right; left
    rw [h]
    rfl
  · rcases submitRateLimit_forms app req b with ⟨_, h2⟩ | ⟨_, h2⟩
    · right; right; left
      rw [h, h2]
    · rcases submitPersist_forms app req (RecordAttempt app.counter req.submitter app.now).2 b
        with h3 | ⟨m, h3⟩
      · left
        rw [h, h2, h3]
      · right; right; right
        rw [h, h2, h3]

/-- The branch-level case analysis of `ServeHTTP`: the 411 and 413 gates
(with their conditions), the 400 rejections, the whitelist 401, or the
signature stage onwards. -/
theorem serve_forms (app : AppModel) (inp : SubmitInput) :
    (inp.contentLength = -1 ∧ ServeHTTP app inp = rejected app 411 .empty false)
    ∨ (inp.contentLength ≠ -1 ∧ app.maxSubmitPayloadSize < inp.contentLength
        ∧ ServeHTTP app inp = rejected app 413 .empty false)
    ∨ (∃ m, ServeHTTP app inp = rejected app 400 (.err m) false)
    ∨ (∃ m, ServeHTTP app inp = rejected app 401 (.err m) false)
    ∨ (∃ req, inp.decoded = some req ∧ ServeHTTP app inp = submitSignature app req) := by
  by_cases h1 : inp.contentLength = -1
  · left
    exact ⟨h1, by simp [ServeHTTP, h1]⟩
  by_cases h2 : app.maxSubmitPayloadSize < inp.contentLength
  · right; left
    exact ⟨h1, h2, by simp [ServeHTTP, h1, h2]⟩
  by_cases h3 : inp.bodyReadOk = false
  · right; right; left
    exact ⟨("Error reading the body"), by simp [ServeHTTP, h1, h2, h3]⟩
  rcases hd : inp.decoded with _ | req
  · right; right; left
    exact ⟨("Error decoding payload"), by simp [ServeHTTP, h1, h2, h3, hd]⟩
  by_cases h4 : req.requiredFieldsOk = false
  · right; right; left
    exact ⟨("One of required fields wasn't provided"),
      by simp [ServeHTTP, h1, h2, h3, hd, h4]⟩
  by_cases h5 : app.whitelistDisabled = false ∧ app.whitelist req.submitter = false
  · right; right; right; left
    exact ⟨(("Submitter is not registered: ") ++ req.submitter.str),
      by simp [ServeHTTP, h1, h2, h3, hd, h4, h5.1, h5.2]⟩
  have h5' : (!app.whitelistDisabled && !app.whitelist req.submitter) = false := by
    cases hx : app.whitelistDisabled with
    | true => simp
    | false =>
      cases hy : app.whitelist req.submitter with
      | true => simp [hy]
      | false => exact absurd ⟨hx, hy⟩ h5
  by_cases h6 : app.now < req.createdAt + app.timeDiffDelta
  · right; right; left
    exact ⟨("Field created_at is a timestamp in future"),
      by simp [ServeHTTP, h1, h2, h3, hd, h4, h5', h6]⟩
  · right; right; right; right
    exact ⟨req, rfl, by simp [ServeHTTP, h1, h2, h3, hd, h4, h5', h6]⟩

/-- C6 counterexample: a request with no Content-Length is answered 411
with no body at all — `ServeHTTP` only calls `WriteHeader(411)` and
returns before `writeErrorResponse` — so this rejection does not carry the
structured error object the claim requires of every rejection. -/
theorem C6_counterexample :
    (ServeHTTP exApp { contentLength := -1, bodyReadOk := true, decoded := some exReq }).status = 411
    ∧ (ServeHTTP exApp { contentLength := -1, bodyReadOk := true, decoded := some exReq }).body.isError = false := by
  decide

/-- C6 (amended): a missing Content-Length yields 411 and a declared
length above the maximum yields 413, both with an empty body (no error
object); every rejection other than 411 and 413 carries the structured
error body written by `writeErrorResponse`. -/
theorem C6_amended_status_bodies :
    (∀ (app : AppModel) (inp : SubmitInput), inp.contentLength = -1 →
       (ServeHTTP app inp).status = 411 ∧ (ServeHTTP app inp).body = .empty)
    ∧ (∀ (app : AppModel) (inp : SubmitInput), inp.contentLength ≠ -1 →
       app.maxSubmitPayloadSize < inp.contentLength →
       (ServeHTTP app inp).status = 413 ∧ (ServeHTTP app inp).body = .empty)
    ∧ (∀ (app : AppModel) (inp : SubmitInput), (ServeHTTP app inp).status ≠ 200 →
       (ServeHTTP app inp).status ≠ 411 → (ServeHTTP app inp).status ≠ 413 →
       (ServeHTTP app inp).body.isError = true) := by
  refine ⟨?_, ?_, ?_⟩
  · intro app inp h
    simp [ServeHTTP, h, rejected]
  · intro app inp h1 h2
    simp [ServeHTTP, h1, h2, rejected]
  · intro app inp h200 h411 h413
    rcases serve_forms app inp with ⟨_, h⟩ | ⟨_, _, h⟩ | ⟨m, h⟩ | ⟨m, h⟩ | ⟨req, hdec, h⟩
    · rw [h] at h411
      exact absurd rfl h411
    · rw [h] at h413
      exact absurd rfl h413
    · rw [h]
      rfl
    · rw [h]
      rfl
    · rw [h]
      rcases submitSignature_forms app req with h2 | h2 | ⟨b, h2⟩
      · rw [h2]
        rfl
      · rw [h2]
        rfl
      · rw [h2]
        rcases submitRateLimit_forms app req b with ⟨-, h3⟩ | ⟨-, h3⟩
        · rw [h3]
          rfl
        · rw [h3]
          rcases submitPersist_forms app req
              (RecordAttempt app.counter req.submitter app.now).2 b with h4 | ⟨m, h4⟩
          · rw [h4]
            rfl
          · rw [h, h2, h3, h4] at h200
            exact absurd rfl h200

/-- C6 witness: the amended statement at concrete requests — one without
Content-Length, one oversized, and one whose rejection (401, invalid
signature) carries the error body. -/
theorem C6_amended_status_bodies_witness :
    (({ contentLength := -1, bodyReadOk := true, decoded := none } : SubmitInput).contentLength = -1
      ∧ (ServeHTTP exApp { contentLength := -1, bodyReadOk := true, decoded := none }).status = 411
      ∧ (ServeHTTP exApp { contentLength := -1, bodyReadOk := true, decoded := none }).body = .empty)
    ∧ ((exInp 1001).contentLength ≠ -1
      ∧ exApp.maxSubmitPayloadSize < (exInp 1001).contentLength
      ∧ (ServeHTTP exApp (exInp 1001)).status = 413
      ∧ (ServeHTTP exApp (exInp 1001)).body = .empty)
    ∧ ((ServeHTTP exApp { contentLength := 5, bodyReadOk := false, decoded := none }).status ≠ 200
      ∧ (ServeHTTP exApp { contentLength := 5, bodyReadOk := false, decoded := none }).body.isError = true) :=
  ⟨⟨rfl,
    C6_amended_status_bodies.1 exApp { contentLength := -1, bodyReadOk := true, decoded := none } rfl⟩,
   ⟨by decide, by decide,
    C6_amended_status_bodies.2.1 exApp (exInp 1001) (by decide) (by decide)⟩,
   ⟨by decide,
    C6_amended_status_bodies.2.2 exApp { contentLength := 5, bodyReadOk := false, decoded := none }
      (by decide) (by decide) (by decide)⟩⟩

/-- A 413 response happens only when the declared Content-Length strictly
exceeds the configured maximum. -/
theorem serve_413_gate (app : AppModel) (inp : SubmitInput)
    (h413 : (ServeHTTP app inp).status = 413) :
    app.maxSubmitPayloadSize < inp.contentLength := by
  rcases serve_forms app inp with ⟨-, h⟩ | ⟨-, hlt, -⟩ | ⟨m, h⟩ | ⟨m, h⟩ | ⟨req, hdec, h⟩
  · rw [h] at h413
    simp [rejected] at h413
  · exact hlt
  · rw [h] at h413
    simp [rejected] at h413
  · rw [h] at h413
    simp [rejected] at h413
  · rw [h] at h413
    rcases submitSignature_status app req with hs | hs | hs | hs <;>
      rw [h413] at hs <;> simp at hs

/-- C9: a declared Content-Length exactly equal to the configured maximum
passes the size gate — the 413 rejection fires only for strictly greater
lengths. -/
theorem C9_exact_max_passes_gate (app : AppModel) (inp : SubmitInput) :
    (inp.contentLength = app.maxSubmitPayloadSize → (ServeHTTP app inp).status ≠ 413)
    ∧ ((ServeHTTP app inp).status = 413 →
        app.maxSubmitPayloadSize < inp.contentLength) := by
  constructor
  · intro heq h413
    have h := serve_413_gate app inp h413
    rw [heq] at h
    exact lt_irrefl _ h
  · intro h413
    exact serve_413_gate app inp h413

/-- C9 witness: a request whose Content-Length equals the 1000-byte
maximum is not rejected with 413. -/
theorem C9_exact_max_passes_gate_witness :
    (exInp 1000).contentLength = exApp.maxSubmitPayloadSize
    ∧ (((exInp 1000).contentLength = exApp.maxSubmitPayloadSize →
          (ServeHTTP exApp (exInp 1000)).status ≠ 413)
       ∧ ((ServeHTTP exApp (exInp 1000)).status = 413 →
          exApp.maxSubmitPayloadSize < (exInp 1000).contentLength)) :=
  ⟨by decide, C9_exact_max_passes_gate exApp (exInp 1000)⟩

/-- From the signature stage on, either nothing is persisted, or the
rate limiter consumed a slot (`RecordAttempt` returned true, the counter
advanced) and the response is the 200. -/
theorem submitSignature_saved (app : AppModel) (req : SubmitRequest) :
    (submitSignature app req).saved = none
    ∨ ((submitSignature app req).rateLimiterCalled = true
        ∧ (RecordAttempt app.counter req.submitter app.now).1 = true
        ∧ (submitSignature app req).counter
            = (RecordAttempt app.counter req.submitter app.now).2
        ∧ (submitSignature app req).status = 200) := by
  rcases submitSignature_forms app req with h | h | ⟨b, h⟩
  · left
    rw [h]
    rfl
  · left
    rw [h]
    rfl
  · rcases submitRateLimit_forms app req b with ⟨-, h2⟩ | ⟨hr, h2⟩
    · left
      rw [h, h2]
    · rcases submitPersist_forms app req
          (RecordAttempt app.counter req.submitter app.now).2 b with h3 | ⟨m, h3⟩
      · left
        rw [h, h2, h3]
      · right
        rw [h, h2, h3]
        exact ⟨rfl, hr, rfl, rfl⟩

/-- C1: no stage runs past a terminal one, and side effects are ordered:
whenever anything is persisted, the rate limiter was called first and had
consumed one attempt slot (the counter advanced by that call) with a 200
response; any non-200 outcome persists nothing; and a request rejected by
the whitelist gate gets the 401 with no rate-limit attempt recorded, no
counter change, and no persistence. -/
theorem C1_effect_ordering (app : AppModel) (inp : SubmitInput)
    (req : SubmitRequest) (hdec : inp.decoded = some req) :
    ((ServeHTTP app inp).saved.isSome = true →
        (ServeHTTP app inp).rateLimiterCalled = true
        ∧ (RecordAttempt app.counter req.submitter app.now).1 = true
        ∧ (ServeHTTP app inp).counter
            = (RecordAttempt app.counter req.submitter app.now).2
        ∧ (ServeHTTP app inp).status = 200)
    ∧ ((ServeHTTP app inp).status ≠ 200 → (ServeHTTP app inp).saved = none)
    ∧ (app.whitelistDisabled = false → app.whitelist req.submitter = false →
        inp.contentLength ≠ -1 → ¬app.maxSubmitPayloadSize < inp.contentLength →
        inp.bodyReadOk = true → req.requiredFieldsOk = true →
        (ServeHTTP app inp).status = 401
        ∧ (ServeHTTP app inp).rateLimiterCalled = false
        ∧ (ServeHTTP app inp).saved = none
        ∧ (ServeHTTP app inp).counter = app.counter) := by
  have hforms := serve_forms app inp
  refine ⟨?_, ?_, ?_⟩
  · intro hsome
    rcases hforms with ⟨-, h⟩ | ⟨-, -, h⟩ | ⟨m, h⟩ | ⟨m, h⟩ | ⟨req', hd', h⟩
    · rw [h] at hsome
      simp [rejected] at hsome
    · rw [h] at hsome
      simp [rejected] at hsome
    · rw [h] at hsome
      simp [rejected] at hsome
    · rw [h] at hsome
      simp [rejected] at hsome
    · have hrr : req' = req := Option.some.inj (hd'.symm.trans hdec)
      subst hrr
      rw [h] at hsome ⊢
      rcases submitSignature_saved app req' with hn | hy
      · rw [hn] at hsome
        simp at hsome
      · exact hy
  · intro h200
    rcases hforms with ⟨-, h⟩ | ⟨-, -, h⟩ | ⟨m, h⟩ | ⟨m, h⟩ | ⟨req', hd', h⟩
    · rw [h]
      rfl
    · rw [h]
      rfl
    · rw [h]
      rfl
    · rw [h]
      rfl
    · have hrr : req' = req := Option.some.inj (hd'.symm.trans hdec)
      subst hrr
      rw [h] at h200 ⊢
      rcases submitSignature_saved app req' with hn | hy
      · exact hn
      · exact absurd hy.2.2.2 h200
  · intro hw hs hcl hsz hbr hrf
    have hserve : ServeHTTP app inp
        = rejected app 401
            (.err (("Submitter is not registered: ") ++ req.submitter.str)) false := by
      simp [ServeHTTP, hcl, hsz, hbr, hdec, hrf, hw, hs]
    rw [hserve]
    exact ⟨rfl, rfl, rfl, rfl⟩

/-- C1 witness: a well-formed request from a submitter outside the
whitelist, at a concrete app state. -/
theorem C1_effect_ordering_witness :
    ({ contentLength := 10, bodyReadOk := true
     , decoded := some exReq } : SubmitInput).decoded = some exReq
    ∧ ((ServeHTTP { exApp with whitelist := fun _ => false }
          { contentLength := 10, bodyReadOk := true, decoded := some exReq }).saved.isSome = true →
        (ServeHTTP { exApp with whitelist := fun _ => false }
          { contentLength := 10, bodyReadOk := true, decoded := some exReq }).rateLimiterCalled = true
        ∧ (RecordAttempt ({ exApp with whitelist := fun _ => false } : AppModel).counter
            exReq.submitter ({ exApp with whitelist := fun _ => false } : AppModel).now).1 = true
        ∧ (ServeHTTP { exApp with whitelist := fun _ => false }
            { contentLength := 10, bodyReadOk := true, decoded := some exReq }).counter
            = (RecordAttempt ({ exApp with whitelist := fun _ => false } : AppModel).counter
                exReq.submitter ({ exApp with whitelist := fun _ => false } : AppModel).now).2
        ∧ (ServeHTTP { exApp with whitelist := fun _ => false }
            { contentLength := 10, bodyReadOk := true, decoded := some exReq }).status = 200)
    ∧ ((ServeHTTP { exApp with whitelist := fun _ => false }
          { contentLength := 10, bodyReadOk := true, decoded := some exReq }).status ≠ 200 →
        (ServeHTTP { exApp with whitelist := fun _ => false }
          { contentLength := 10, bodyReadOk := true, decoded := some exReq }).saved = none)
    ∧ (({ exApp with whitelist := fun _ => false } : AppModel).whitelistDisabled = false →
        ({ exApp with whitelist := fun _ => false } : AppModel).whitelist exReq.submitter = false →
        ({ contentLength := 10, bodyReadOk := true, decoded := some exReq } : SubmitInput).contentLength ≠ -1 →
        ¬({ exApp with whitelist := fun _ => false } : AppModel).maxSubmitPayloadSize
            < ({ contentLength := 10, bodyReadOk := true, decoded := some exReq } : SubmitInput).contentLength →
        ({ contentLength := 10, bodyReadOk := true, decoded := some exReq } : SubmitInput).bodyReadOk = true →
        exReq.requiredFieldsOk = true →
        (ServeHTTP { exApp with whitelist := fun _ => false }
          { contentLength := 10, bodyReadOk := true, decoded := some exReq }).status = 401
        ∧ (ServeHTTP { exApp with whitelist := fun _ => false }
            { contentLength := 10, bodyReadOk := true, decoded := some exReq }).rateLimiterCalled = false
        ∧ (ServeHTTP { exApp with whitelist := fun _ => false }
            { contentLength := 10, bodyReadOk := true, decoded := some exReq }).saved = none
        ∧ (ServeHTTP { exApp with whitelist := fun _ => false }
            { contentLength := 10, bodyReadOk := true, decoded := some exReq }).counter
            = ({ exApp with whitelist := fun _ => false } : AppModel).counter) :=
  ⟨rfl, C1_effect_ordering { exApp with whitelist := fun _ => false }
    { contentLength := 10, bodyReadOk := true, decoded := some exReq } exReq rfl⟩

/-- C2: a decoded request that reaches the freshness check is rejected
with 400 exactly when its declared creation time exceeds now plus the
clock-skew tolerance (the tolerance being the negation of the
`TIME_DIFF_DELTA` constant the code adds before comparing); on that
rejection no signature verification runs, no rate-limit attempt is
recorded, the counter is unchanged and nothing is persisted. -/
theorem C2_freshness_gate (app : AppModel) (inp : SubmitInput)
    (req : SubmitRequest) (hdec : inp.decoded = some req)
    (hcl : inp.contentLength ≠ -1)
    (hsz : ¬app.maxSubmitPayloadSize < inp.contentLength)
    (hbody : inp.bodyReadOk = true)
    (hreq : req.requiredFieldsOk = true)
    (hwl : app.whitelistDisabled = true ∨ app.whitelist req.submitter = true) :
    ((ServeHTTP app inp).status = 400
        ↔ app.now + (-app.timeDiffDelta) < req.createdAt)
    ∧ (app.now + (-app.timeDiffDelta) < req.createdAt →
        (ServeHTTP app inp).sigVerifyCalled = false
        ∧ (ServeHTTP app inp).rateLimiterCalled = false
        ∧ (ServeHTTP app inp).counter = app.counter
        ∧ (ServeHTTP app inp).saved = none) := by
  have hwl' : (!app.whitelistDisabled && !app.whitelist req.submitter) = false := by
    rcases hwl with h | h <;> simp [h]
  by_cases h6 : app.now < req.createdAt + app.timeDiffDelta
  · have hserve : ServeHTTP app inp
        = rejected app 400 (.err ("Field created_at is a timestamp in future")) false := by
      simp [ServeHTTP, hcl, hsz, hbody, hdec, hreq, hwl', h6]
    rw [hserve]
    refine ⟨⟨fun _ => by omega, fun _ => rfl⟩, fun _ => ⟨rfl, rfl, rfl, rfl⟩⟩
  · have hserve : ServeHTTP app inp = submitSignature app req := by
      simp [ServeHTTP, hcl, hsz, hbody, hdec, hreq, hwl', h6]
    rw [hserve]
    constructor
    · constructor
      · intro h400
        exfalso
        rcases submitSignature_status app req with hs | hs | hs | hs <;>
          rw [h400] at hs <;> omega
      · intro hrt
        exact absurd hrt (by omega)
    · intro hrt
      exact absurd hrt (by omega)

/-- C2 witness: a concrete request whose creation time is within
tolerance (the theorem's hypotheses hold; its freshness biconditional and
effect guarantees follow). -/
theorem C2_freshness_gate_witness :
    (exInp 10).decoded = some exReq
    ∧ (exInp 10).contentLength ≠ -1
    ∧ ¬exApp.maxSubmitPayloadSize < (exInp 10).contentLength
    ∧ (exInp 10).bodyReadOk = true
    ∧ exReq.requiredFieldsOk = true
    ∧ (exApp.whitelistDisabled = true ∨ exApp.whitelist exReq.submitter = true)
    ∧ (((ServeHTTP exApp (exInp 10)).status = 400
          ↔ exApp.now + (-exApp.timeDiffDelta) < exReq.createdAt)
       ∧ (exApp.now + (-exApp.timeDiffDelta) < exReq.createdAt →
           (ServeHTTP exApp (exInp 10)).sigVerifyCalled = false
           ∧ (ServeHTTP exApp (exInp 10)).rateLimiterCalled = false
           ∧ (ServeHTTP exApp (exInp 10)).counter = exApp.counter
           ∧ (ServeHTTP exApp (exInp 10)).saved = none)) :=
  ⟨rfl, by decide, by decide, rfl, rfl, Or.inr rfl,
   C2_freshness_gate exApp (exInp 10) exReq rfl (by decide) (by decide) rfl rfl
     (Or.inr rfl)⟩

/-- When no stored entry of the key is older than the window, the prune
keeps everything and `RecordAttempt` reduces to a pure counter test. -/
theorem RecordAttempt_no_prune (c : AttemptState) (key : Pk) (t : Int)
    (hnp : ∀ x ∈ c.attempts key, t - x < c.window) :
    RecordAttempt c key t
      = if c.maxAttempts ≤ (c.attempts key).length
        then (false, { c with attempts :=
                fun k => if k = key then c.attempts key else c.attempts k })
        else (true, { c with attempts :=
                fun k => if k = key then c.attempts key ++ [t] else c.attempts k }) := by
  have hkept : (c.attempts key).filter (fun x => decide (t - x < c.window))
      = c.attempts key :=
    List.filter_eq_self.mpr (fun a ha => by simpa using hnp a ha)
  simp only [RecordAttempt, hkept]

/-- `RecordAttempt` for one key never touches another key's record. -/
theorem RecordAttempt_other (c : AttemptState) (key k : Pk) (t : Int)
    (hk : k ≠ key) :
    (RecordAttempt c key t).2.attempts k = c.attempts k := by
  simp only [RecordAttempt]
  split <;> simp [hk]

/-- `RecordAttempt` never changes the configured maximum or window. -/
theorem RecordAttempt_config (c : AttemptState) (key : Pk) (t : Int) :
    (RecordAttempt c key t).2.maxAttempts = c.maxAttempts
    ∧ (RecordAttempt c key t).2.window = c.window := by
  simp only [RecordAttempt]
  split <;> exact ⟨rfl, rfl⟩

/-- The allow/reject outcome depends only on the key's own record and the
shared configuration. -/
theorem RecordAttempt_fst_congr (c₁ c₂ : AttemptState) (key : Pk) (t : Int)
    (ha : c₂.attempts key = c₁.attempts key)
    (hm : c₂.maxAttempts = c₁.maxAttempts)
    (hw : c₂.window = c₁.window) :
    (RecordAttempt c₂ key t).1 = (RecordAttempt c₁ key t).1 := by
  simp only [RecordAttempt, ha, hm, hw]
  split <;> rfl

/-- When every stored entry of the key has aged past the window, the prune
drops them all and the call is allowed (given a positive maximum). -/
theorem RecordAttempt_pruned_allows (c : AttemptState) (key : Pk) (t : Int)
    (hall : ∀ x ∈ c.attempts key, c.window ≤ t - x)
    (hmax : 0 < c.maxAttempts) :
    (RecordAttempt c key t).1 = true := by
  have hkept : (c.attempts key).filter (fun x => decide (t - x < c.window)) = [] := by
    rw [List.filter_eq_nil_iff]
    intro a ha
    have := hall a ha
    simp
    omega
  simp only [RecordAttempt, hkept]
  rw [if_neg (by simpa using Nat.pos_iff_ne_zero.1 hmax)]

/-- Running a batch of calls for one key, all inside one trailing window,
from a state whose stored entries are inside the window too: no pruning
happens, the i-th call is allowed exactly while the stored count stays
below the maximum, configuration is untouched, stored entries come from
the initial record or the calls, and the final count saturates at the
maximum. -/
theorem runAttempts_spec (key : Pk) :
    ∀ (ts : List Int) (c : AttemptState),
    (∀ x ∈ c.attempts key, ∀ t ∈ ts, t - x < c.window) →
    (∀ a ∈ ts, ∀ b ∈ ts, a - b < c.window) →
    (runAttempts c key ts).1
        = (List.range ts.length).map
            (fun i => decide ((c.attempts key).length + i < c.maxAttempts))
    ∧ (runAttempts c key ts).2.maxAttempts = c.maxAttempts
    ∧ (runAttempts c key ts).2.window = c.window
    ∧ (∀ x ∈ (runAttempts c key ts).2.attempts key, x ∈ c.attempts key ∨ x ∈ ts)
    ∧ ((runAttempts c key ts).2.attempts key).length
        = (if (c.attempts key).length < c.maxAttempts
           then min ((c.attempts key).length + ts.length) c.maxAttempts
           else (c.attempts key).length) := by
  intro ts
  induction ts with
  | nil =>
    intro c _ _
    refine ⟨rfl, rfl, rfl, fun x hx => Or.inl hx, ?_⟩
    simp only [runAttempts, List.length_nil, Nat.add_zero]
    split
    · next h => omega
    · rfl
  | cons t rest ih =>
    intro c hinit hts
    have hnp : ∀ x ∈ c.attempts key, t - x < c.window :=
      fun x hx => hinit x hx t (List.mem_cons_self t rest)
    have hrw := RecordAttempt_no_prune c key t hnp
    have hstep1 : (runAttempts c key (t :: rest)).1
        = (RecordAttempt c key t).1
          :: (runAttempts (RecordAttempt c key t).2 key rest).1 := rfl
    have hstep2 : (runAttempts c key (t :: rest)).2
        = (runAttempts (RecordAttempt c key t).2 key rest).2 := rfl
    have hmaxA : ((RecordAttempt c key t).2).maxAttempts = c.maxAttempts :=
      (RecordAttempt_config c key t).1
    have hwinA : ((RecordAttempt c key t).2).window = c.window :=
      (RecordAttempt_config c key t).2
    by_cases hcap : c.maxAttempts ≤ (c.attempts key).length
    · rw [if_pos hcap] at hrw
      have hfst : (RecordAttempt c key t).1 = false := by rw [hrw]
      have haK : ((RecordAttempt c key t).2).attempts key = c.attempts key := by
        rw [hrw]
        simp
      have hinit' : ∀ x ∈ ((RecordAttempt c key t).2).attempts key,
          ∀ u ∈ rest, u - x < ((RecordAttempt c key t).2).window := by
        intro x hx u hu
        rw [hwinA]
        rw [haK] at hx
        exact hinit x hx u (List.mem_cons_of_mem t hu)
      have hts' : ∀ a ∈ rest, ∀ b ∈ rest,
          a - b < ((RecordAttempt c key t).2).window := by
        intro a ha b hb
        rw [hwinA]
        exact hts a (List.mem_cons_of_mem t ha) b (List.mem_cons_of_mem t hb)
      obtain ⟨ihres, ihmax, ihwin, ihsub, ihlen⟩ :=
        ih ((RecordAttempt c key t).2) hinit' hts'
      refine ⟨?_, ?_, ?_, ?_, ?_⟩
      · rw [hstep1, hfst, ihres]
        simp only [haK, hmaxA, List.length_cons]
        rw [List.range_succ_eq_map, List.map_cons, List.map_map]
        congr 1
        · exact (decide_eq_false (by omega)).symm
        · apply List.map_congr_left
          intro a ha
          simp only [Function.comp_apply]
          rw [decide_eq_decide]
          omega
      · rw [hstep2, ihmax, hmaxA]
      · rw [hstep2, ihwin, hwinA]
      · intro x hx
        rw [hstep2] at hx
        rcases ihsub x hx with hxA | hxr
        · rw [haK] at hxA
          exact Or.inl hxA
        · exact Or.inr (List.mem_cons_of_mem t hxr)
      · rw [hstep2, ihlen]
        simp only [haK, hmaxA, List.length_cons]
        have hno : ¬ (c.attempts key).length < c.maxAttempts := by omega
        rw [if_neg hno, if_neg hno]
    · rw [if_neg hcap] at hrw
      have hcap' : (c.attempts key).length < c.maxAttempts := Nat.lt_of_not_le hcap
      have hfst : (RecordAttempt c key t).1 = true := by rw [hrw]
      have haK : ((RecordAttempt c key t).2).attempts key
          = c.attempts key ++ [t] := by
        rw [hrw]
        simp
      have hinit' : ∀ x ∈ ((RecordAttempt c key t).2).attempts key,
          ∀ u ∈ rest, u - x < ((RecordAttempt c key t).2).window := by
        intro x hx u hu
        rw [hwinA]
        rw [haK] at hx
        rcases List.mem_append.1 hx with hxo | hxt
        · exact hinit x hxo u (List.mem_cons_of_mem t hu)
        · rw [List.mem_singleton.1 hxt]
          exact hts u (List.mem_cons_of_mem t hu) t (List.mem_cons_self t rest)
      have hts' : ∀ a ∈ rest, ∀ b ∈ rest,
          a - b < ((RecordAttempt c key t).2).window := by
        intro a ha b hb
        rw [hwinA]
        exact hts a (List.mem_cons_of_mem t ha) b (List.mem_cons_of_mem t hb)
      obtain ⟨ihres, ihmax, ihwin, ihsub, ihlen⟩ :=
        ih ((RecordAttempt c key t).2) hinit' hts'
      refine ⟨?_, ?_, ?_, ?_, ?_⟩
      · rw [hstep1, hfst, ihres]
        simp only [haK, hmaxA, List.length_append, List.length_singleton,
          List.length_cons, List.length_nil]
        rw [List.range_succ_eq_map, List.map_cons, List.map_map]
        congr 1
        · exact (decide_eq_true (by omega)).symm
        · apply List.map_congr_left
          intro a ha
          simp only [Function.comp_apply]
          rw [decide_eq_decide]
          omega
      · rw [hstep2, ihmax, hmaxA]
      · rw [hstep2, ihwin, hwinA]
      · intro x hx
        rw [hstep2] at hx
        rcases ihsub x hx with hxA | hxr
        · rw [haK] at hxA
          rcases List.mem_append.1 hxA with hxo | hxt
          · exact Or.inl hxo
          · rw [List.mem_singleton.1 hxt]
            exact Or.inr (List.mem_cons_self t rest)
        · exact Or.inr (List.mem_cons_of_mem t hxr)
      · rw [hstep2, ihlen]
        simp only [haK, hmaxA, List.length_append, List.length_singleton,
          List.length_cons, List.length_nil]
        rw [if_pos hcap']
        simp only [Nat.min_def]
        split <;> split <;> (try split) <;> omega

/-- The expected outcome pattern: of `max + 1` calls the first `max` are
allowed and the last is rejected. -/
theorem range_map_decide_replicate (mx : Nat) :
    (List.range (mx + 1)).map (fun i => decide (0 + i < mx))
      = List.replicate mx true ++ [false] := by
  rw [List.range_succ, List.map_append]
  congr 1
  · rw [List.eq_replicate_iff]
    refine ⟨by simp, ?_⟩
    intro b hb
    rcases List.mem_map.1 hb with ⟨i, hi, rfl⟩
    have := List.mem_range.1 hi
    simp
    omega
  · simp

/-- C7: from a fresh record, `max + 1` calls for a key within one trailing
window allow the first `max` and reject the last, which records nothing;
after the window has fully elapsed the key is allowed again; calls for
other keys neither disturb nor influence the key's outcomes; and in the
handler a false `RecordAttempt` maps to status 429. -/
theorem C7_rate_limiter (c : AttemptState) (key otherKey : Pk)
    (ts : List Int) (t' tOther : Int)
    (h0 : c.attempts key = [])
    (hlen : ts.length = c.maxAttempts + 1)
    (hwin : ∀ a ∈ ts, ∀ b ∈ ts, a - b < c.window)
    (hmax : 0 < c.maxAttempts)
    (hafter : ∀ a ∈ ts, c.window ≤ t' - a)
    (hother : otherKey ≠ key) :
    RateLimiterContract c key otherKey ts t' tOther := by
  have hinit : ∀ x ∈ c.attempts key, ∀ t ∈ ts, t - x < c.window := by
    intro x hx
    rw [h0] at hx
    cases hx
  obtain ⟨hres, hmaxf, hwinf, hsub, hlenf⟩ := runAttempts_spec key ts c hinit hwin
  refine ⟨?_, ?_, ?_, ?_, ?_, ?_⟩
  · rw [hres, hlen]
    simp only [h0, List.length_nil]
    exact range_map_decide_replicate c.maxAttempts
  · rw [hlenf]
    simp only [h0, List.length_nil, hlen]
    rw [if_pos hmax]
    simp only [Nat.min_def]
    split <;> omega
  · apply RecordAttempt_pruned_allows
    · intro x hx
      rcases hsub x hx with hxc | hxts
      · rw [h0] at hxc
        cases hxc
      · rw [hwinf]
        exact hafter x hxts
    · rw [hmaxf]
      exact hmax
  · exact RecordAttempt_other c otherKey key tOther (Ne.symm hother)
  · intro c₂ ha hm hw
    exact RecordAttempt_fst_congr c c₂ key tOther ha hm hw
  · intro app inp req hd hcl hsz hbr hrf hwl hfresh hsig hrec
    have hwl' : (!app.whitelistDisabled && !app.whitelist req.submitter) = false := by
      rcases hwl with h | h <;> simp [h]
    have hserve : ServeHTTP app inp = submitSignature app req := by
      simp [ServeHTTP, hcl, hsz, hbr, hd, hrf, hwl', hfresh]
    rw [hserve]
    have hrl : ∀ b, (submitRateLimit app req b).status = 429 := by
      intro b
      simp [submitRateLimit, hrec]
    by_cases hvd : app.verifySignatureDisabled = false
    · rcases hsig with hsig | ⟨hsp, hsv⟩
      · simp [hsig] at hvd
      · rcases hp : req.signPayload with _ | p
        · exact absurd hp hsp
        · simp [submitSignature, hvd, hp, hsv, hrl]
    · simp [submitSignature, hvd, hrl]

/-- C7 witness: max = 1, window = 10, two calls at times 0 and 1 for one
key, a later probe at time 100, a foreign key call at time 5. -/
theorem C7_rate_limiter_witness :
    (({ maxAttempts := 1, window := 10, attempts := fun _ => [] }
        : AttemptState).attempts ⟨("a")⟩ = []
      ∧ ([0, 1] : List Int).length
          = ({ maxAttempts := 1, window := 10, attempts := fun _ => [] }
              : AttemptState).maxAttempts + 1
      ∧ (∀ a ∈ ([0, 1] : List Int), ∀ b ∈ ([0, 1] : List Int),
          a - b < ({ maxAttempts := 1, window := 10, attempts := fun _ => [] }
              : AttemptState).window)
      ∧ 0 < ({ maxAttempts := 1, window := 10, attempts := fun _ => [] }
              : AttemptState).maxAttempts
      ∧ (∀ a ∈ ([0, 1] : List Int),
          ({ maxAttempts := 1, window := 10, attempts := fun _ => [] }
              : AttemptState).window ≤ 100 - a)
      ∧ (⟨("b")⟩ : Pk) ≠ ⟨("a")⟩)
    ∧ RateLimiterContract
        { maxAttempts := 1, window := 10, attempts := fun _ => [] }
        ⟨("a")⟩ ⟨("b")⟩ [0, 1] 100 5 :=
  ⟨⟨rfl, rfl, by decide, by decide, by decide, by decide⟩,
   C7_rate_limiter { maxAttempts := 1, window := 10, attempts := fun _ => [] }
     ⟨("a")⟩ ⟨("b")⟩ [0, 1] 100 5 rfl rfl (by decide) (by decide) (by decide)
     (by decide)⟩

end DelegationBackend
